import Mathlib

/-!
Verification of the headless-UI core: the item registry, the active-item
navigator, the type-ahead search engine, the open/close controller, the
dialog stack, and the Switch / Transition components.

The Switch and Transition definitions are translated from the repository
sources (`src/unnamed/part_001`, `src/unnamed/part_002`).  The menu, radio
group and dialog implementations are not present under `src/` (only their
test suites are), so those parts are modelled from the specification, with
the in-repo tests fixing behaviour where they speak.
-/

namespace HeadlessUI

/-- Modelled from the spec: the Item of the item registry (§3 Data Model);
the registry implementation itself is absent from `src/`.  `id` is the
opaque stable identifier, `pos` the document position of the rendered
node, `disabled` the disabled flag, `textValue` the text used by
type-ahead. -/
structure Item where
  id : Nat
  pos : Nat
  disabled : Bool
  textValue : String
deriving DecidableEq

/-! ## Item Registry (spec §4.1) -/

/-- Modelled from the spec: registration inserts the item at its document
position, keeping the registry sorted by `pos` (document order), never by
call order. -/
def insertByPos (it : Item) : List Item → List Item
  | [] => [it]
  | x :: xs => if it.pos ≤ x.pos then it :: x :: xs else x :: insertByPos it xs

/-- Modelled from the spec: a register or an unregister call on the item
registry. -/
inductive RegOp where
  | reg (it : Item)
  | unreg (id : Nat)

/-- Modelled from the spec: one registry operation; `reg` re-sorts by
document position, `unreg` removes the item with the given id
(a double unregister is a no-op). -/
def applyOp (op : RegOp) (items : List Item) : List Item :=
  match op with
  | .reg it => insertByPos it items
  | .unreg id => items.filter (fun it => it.id != id)

/-- Modelled from the spec: a whole sequence of register/unregister calls
applied to the registry. -/
def applyOps (ops : List RegOp) (items : List Item) : List Item :=
  match ops with
  | [] => items
  | op :: rest => applyOps rest (applyOp op items)

/-- The registry invariant: items are ordered by document position. -/
def sortedByPos (l : List Item) : Prop :=
  List.Pairwise (fun a b : Item => a.pos ≤ b.pos) l

/-! ## Active-Item Navigator (spec §4.2) -/

/-- Modelled from the spec: the navigation commands of the active-item
navigator. -/
inductive NavCmd where
  | first
  | last
  | next
  | prev
  | specific (id : Nat)

/-- The id of the first enabled item of the list, in document order. -/
def idOfFirstEnabled : List Item → Option Nat
  | [] => none
  | x :: xs => if x.disabled then idOfFirstEnabled xs else some x.id

/-- The id of the last enabled item of the list, in document order. -/
def idOfLastEnabled : List Item → Option Nat
  | [] => none
  | x :: xs =>
    match idOfLastEnabled xs with
    | some j => some j
    | none => if x.disabled then none else some x.id

/-- Whether an item with the given id is present in the list. -/
def hasId (items : List Item) (id : Nat) : Bool :=
  items.any (fun it => it.id == id)

/-- Whether an enabled item with the given id is present in the list. -/
def itemEnabledHas (items : List Item) (id : Nat) : Bool :=
  items.any (fun it => it.id == id && !it.disabled)

/-- Modelled from the spec: the forward scan of `Next` — the first enabled
item strictly after the item carrying the given id; `none` when the scan
hits the end of the list without finding one (no wrap-around). -/
def nextActive : List Item → Nat → Option Nat
  | [], _ => none
  | x :: xs, id => if x.id = id then idOfFirstEnabled xs else nextActive xs id

/-- Modelled from the spec: the backward scan of `Previous` — the last
enabled item strictly before the item carrying the given id; `none` when
the scan hits the start of the list without finding one (no wrap-around). -/
def prevActive : List Item → Nat → Option Nat
  | [], _ => none
  | x :: xs, id =>
    if x.id = id then none
    else
      match prevActive xs id with
      | some j => some j
      | none => if hasId xs id && !x.disabled then some x.id else none

/-- Modelled from the spec: recovery after unregistration — an active id
that no longer exists in the item list collapses to `none`. -/
def validActive (items : List Item) (active : Option Nat) : Option Nat :=
  match active with
  | none => none
  | some id => if hasId items id then some id else none

/-- Modelled from the spec: the pure navigator
`computeNext(command, items, activeId)` of §4.2.  `Next`/`Previous` scan
from the current index and do not wrap; `First`/`Last` jump to the
first/last enabled item (`none` when no item is enabled); `specific`
jumps only to an enabled item and otherwise leaves the active item
unchanged. -/
def computeNext (cmd : NavCmd) (items : List Item) (active : Option Nat) : Option Nat :=
  match cmd with
  | .first => idOfFirstEnabled items
  | .last => idOfLastEnabled items
  | .next =>
    match validActive items active with
    | none => idOfFirstEnabled items
    | some id =>
      match nextActive items id with
      | some j => some j
      | none => some id
  | .prev =>
    match validActive items active with
    | none => idOfLastEnabled items
    | some id =>
      match prevActive items id with
      | some j => some j
      | none => some id
  | .specific tid =>
    if itemEnabledHas items tid then some tid
    else validActive items active

/-- Modelled from the spec: the RadioGroup implementation is absent from
`src/`; its ArrowUp handling is reconstructed from the in-repo
radio-group test ("should guarantee the radio option order after a few
unmounts"), which asserts that ArrowUp moves to the previous option and
loops around from the first option to the last one. -/
def radioArrowUp (options : List Item) (activeId : Nat) : Option Nat :=
  match prevActive options activeId with
  | some j => some j
  | none => idOfLastEnabled options

/-! ## Registry lemmas -/

theorem mem_insertByPos {y it : Item} : ∀ {l : List Item},
    y ∈ insertByPos it l → y = it ∨ y ∈ l := by
  intro l
  induction l with
  | nil => intro h; simp [insertByPos] at h; exact Or.inl h
  | cons x xs ih =>
    intro h
    simp only [insertByPos] at h
    by_cases hle : it.pos ≤ x.pos
    · simp [hle] at h
      rcases h with h | h | h
      · exact Or.inl h
      · exact Or.inr (by simp [h])
      · exact Or.inr (by simp [h])
    · simp [hle] at h
      rcases h with h | h
      · exact Or.inr (by simp [h])
      · rcases ih h with h' | h'
        · exact Or.inl h'
        · exact Or.inr (by simp [h'])

theorem sortedByPos_insertByPos {it : Item} : ∀ {l : List Item},
    sortedByPos l → sortedByPos (insertByPos it l) := by
  intro l
  induction l with
  | nil => intro _; simp [insertByPos, sortedByPos]
  | cons x xs ih =>
    intro h
    rw [sortedByPos, List.pairwise_cons] at h
    obtain ⟨hx, hxs⟩ := h
    simp only [insertByPos]
    by_cases hle : it.pos ≤ x.pos
    · simp only [if_pos hle, sortedByPos, List.pairwise_cons]
      refine ⟨?_, ?_⟩
      · intro a ha
        rcases List.mem_cons.mp ha with ha | ha
        · exact ha ▸ hle
        · exact le_trans hle (hx a ha)
      · exact ⟨hx, hxs⟩
    · simp only [if_neg hle, sortedByPos, List.pairwise_cons]
      refine ⟨?_, ih hxs⟩
      intro a ha
      rcases mem_insertByPos ha with ha | ha
      · subst ha
        exact le_of_not_le hle
      · exact hx a ha

theorem sortedByPos_filter {p : Item → Bool} {l : List Item}
    (h : sortedByPos l) : sortedByPos (l.filter p) :=
  List.Pairwise.sublist (List.filter_sublist l) h

theorem sortedByPos_applyOps : ∀ (ops : List RegOp) (items : List Item),
    sortedByPos items → sortedByPos (applyOps ops items) := by
  intro ops
  induction ops with
  | nil => intro items h; exact h
  | cons op rest ih =>
    intro items h
    apply ih
    cases op with
    | reg it => exact sortedByPos_insertByPos h
    | unreg id => exact sortedByPos_filter h

/-! ## Navigator lemmas -/

theorem idOfFirstEnabled_eq_none : ∀ {l : List Item},
    (∀ it ∈ l, it.disabled = true) → idOfFirstEnabled l = none := by
  intro l
  induction l with
  | nil => intro _; rfl
  | cons x xs ih =>
    intro h
    have hx : x.disabled = true := h x (by simp)
    simp only [idOfFirstEnabled, if_pos hx]
    exact ih (fun it hit => h it (by simp [hit]))

theorem allDisabled_of_idOfLastEnabled_none : ∀ {l : List Item},
    idOfLastEnabled l = none → ∀ it ∈ l, it.disabled = true := by
  intro l
  induction l with
  | nil => intro _ it hit; simp at hit
  | cons x xs ih =>
    intro h it hit
    simp only [idOfLastEnabled] at h
    cases hxs : idOfLastEnabled xs with
    | some j => rw [hxs] at h; simp at h
    | none =>
      rw [hxs] at h
      by_cases hd : x.disabled
      · rcases List.mem_cons.mp hit with rfl | hmem
        · exact hd
        · exact ih hxs it hmem
      · simp [hd] at h

theorem idOfLastEnabled_mem : ∀ {l : List Item} {j : Nat},
    idOfLastEnabled l = some j → j ∈ l.map Item.id := by
  intro l
  induction l with
  | nil => intro j h; simp [idOfLastEnabled] at h
  | cons x xs ih =>
    intro j h
    simp only [idOfLastEnabled] at h
    cases hxs : idOfLastEnabled xs with
    | some k =>
      rw [hxs] at h
      simp only [Option.some.injEq] at h
      subst h
      simp [ih hxs]
    | none =>
      rw [hxs] at h
      by_cases hd : x.disabled
      · simp [hd] at h
      · simp [hd] at h
        simp [h]

theorem idOfFirstEnabled_mem : ∀ {l : List Item} {j : Nat},
    idOfFirstEnabled l = some j → j ∈ l.map Item.id := by
  intro l
  induction l with
  | nil => intro j h; simp [idOfFirstEnabled] at h
  | cons x xs ih =>
    intro j h
    simp only [idOfFirstEnabled] at h
    by_cases hd : x.disabled
    · rw [if_pos hd] at h
      simp [ih h]
    · rw [if_neg hd] at h
      simp only [Option.some.injEq] at h
      simp [h]

theorem hasId_of_mem {l : List Item} {id : Nat}
    (h : id ∈ l.map Item.id) : hasId l id = true := by
  rw [hasId, List.any_eq_true]
  rcases List.mem_map.mp h with ⟨it, hit, hid⟩
  exact ⟨it, hit, by simp [hid]⟩

theorem nextActive_of_last : ∀ {l : List Item} {i : Nat},
    (l.map Item.id).Nodup → idOfLastEnabled l = some i → nextActive l i = none := by
  intro l
  induction l with
  | nil => intro i _ h; simp [idOfLastEnabled] at h
  | cons x xs ih =>
    intro i hnd h
    simp only [List.map_cons, List.nodup_cons] at hnd
    obtain ⟨hx, hxs⟩ := hnd
    simp only [idOfLastEnabled] at h
    cases hlast : idOfLastEnabled xs with
    | some j =>
      rw [hlast] at h
      simp only [Option.some.injEq] at h
      subst h
      have hmem : j ∈ xs.map Item.id := idOfLastEnabled_mem hlast
      have hne : ¬x.id = j := fun hc => hx (hc ▸ hmem)
      simp only [nextActive, if_neg hne]
      exact ih hxs hlast
    | none =>
      rw [hlast] at h
      by_cases hd : x.disabled
      · simp [hd] at h
      · simp only [if_neg hd, Option.some.injEq] at h
        simp only [nextActive, if_pos h]
        exact idOfFirstEnabled_eq_none (allDisabled_of_idOfLastEnabled_none hlast)

theorem prevActive_of_first : ∀ {l : List Item} {i : Nat},
    (l.map Item.id).Nodup → idOfFirstEnabled l = some i → prevActive l i = none := by
  intro l
  induction l with
  | nil => intro i _ h; simp [idOfFirstEnabled] at h
  | cons x xs ih =>
    intro i hnd h
    simp only [List.map_cons, List.nodup_cons] at hnd
    obtain ⟨hx, hxs⟩ := hnd
    simp only [idOfFirstEnabled] at h
    by_cases hd : x.disabled
    · rw [if_pos hd] at h
      have hmem : i ∈ xs.map Item.id := idOfFirstEnabled_mem h
      have hne : ¬x.id = i := fun hc => hx (hc ▸ hmem)
      simp only [prevActive, if_neg hne, ih hxs h, hd]
      simp
    · rw [if_neg hd] at h
      simp only [Option.some.injEq] at h
      simp [prevActive, h]

/-! ## Concrete fixtures from the tests -/

/-- The "Pickup" option of the pizza-delivery radio-group test. -/
def pickupItem : Item := ⟨0, 0, false, "pickup"⟩

/-- The "Home delivery" option of the pizza-delivery radio-group test. -/
def homeItem : Item := ⟨1, 1, false, "home-delivery"⟩

/-- The "Dine in" option of the pizza-delivery radio-group test. -/
def dineItem : Item := ⟨2, 2, false, "dine-in"⟩

/-- The three pizza-delivery options, in document order. -/
def pizzaItems : List Item := [pickupItem, homeItem, dineItem]

/-- The register/unregister call sequence of the remount scenario: all
three options mount, the first one unmounts, then it remounts after its
siblings were already registered. -/
def remountOps : List RegOp :=
  [.reg pickupItem, .reg homeItem, .reg dineItem, .unreg 0, .reg pickupItem]

/-- C2: for every sequence of register and unregister operations, the
registry is sorted by document position, never by call order; in the
remount scenario the item registered last still lands first, and keyboard
navigation afterwards observes document order. -/
theorem C2_registry_document_order :
    (∀ ops : List RegOp, sortedByPos (applyOps ops [])) ∧
    (applyOps remountOps []).map Item.id = [0, 1, 2] ∧
    computeNext NavCmd.next (applyOps remountOps []) (some 0) = some 1 ∧
    computeNext NavCmd.next (applyOps remountOps []) (some 1) = some 2 := by
  refine ⟨?_, by decide, by decide, by decide⟩
  intro ops
  exact sortedByPos_applyOps ops [] List.Pairwise.nil

/-- C1 counterexample: the claim extends the no-wrap rule to the
RadioGroup, but the RadioGroup's ArrowUp issued while the first enabled
option (`pickup`) is active loops around to the last option (`dine-in`),
exactly as the in-repo radio-group test asserts. -/
theorem C1_counterexample :
    idOfFirstEnabled pizzaItems = some 0 ∧
    radioArrowUp pizzaItems 0 = some 2 ∧ (2 : Nat) ≠ 0 := by
  decide

/-- C1 (amended): for the Menu navigator, `Next` issued while the last
enabled item is active and `Previous` issued while the first enabled item
is active leave the active item unchanged (no wrap-around); the
RadioGroup does not share this boundary behaviour — its ArrowUp wraps
around from the first option to the last one. -/
theorem C1_menu_no_wrap_radio_wraps :
    (∀ (items : List Item) (i : Nat), (items.map Item.id).Nodup →
      idOfLastEnabled items = some i →
      computeNext NavCmd.next items (some i) = some i) ∧
    (∀ (items : List Item) (i : Nat), (items.map Item.id).Nodup →
      idOfFirstEnabled items = some i →
      computeNext NavCmd.prev items (some i) = some i) ∧
    radioArrowUp pizzaItems 0 = some 2 ∧
    radioArrowUp pizzaItems 2 = some 1 := by
  refine ⟨?_, ?_, by decide, by decide⟩
  · intro items i hnd h
    have hmem : i ∈ items.map Item.id := idOfLastEnabled_mem h
    simp only [computeNext, validActive, if_pos (hasId_of_mem hmem),
      nextActive_of_last hnd h]
  · intro items i hnd h
    have hmem : i ∈ items.map Item.id := idOfFirstEnabled_mem h
    simp only [computeNext, validActive, if_pos (hasId_of_mem hmem),
      prevActive_of_first hnd h]

/-- Witness for C1: in the menu of the no-wrap test (two leading disabled
items and one enabled item C), both arrow commands leave item C active. -/
theorem C1_witness :
    computeNext NavCmd.next
      [⟨0, 0, true, "Item A"⟩, ⟨1, 1, true, "Item B"⟩, ⟨2, 2, false, "Item C"⟩]
      (some 2) = some 2 ∧
    computeNext NavCmd.prev
      [⟨0, 0, true, "Item A"⟩, ⟨1, 1, true, "Item B"⟩, ⟨2, 2, false, "Item C"⟩]
      (some 2) = some 2 :=
  ⟨C1_menu_no_wrap_radio_wraps.1
      [⟨0, 0, true, "Item A"⟩, ⟨1, 1, true, "Item B"⟩, ⟨2, 2, false, "Item C"⟩]
      2 (by decide) (by decide),
   C1_menu_no_wrap_radio_wraps.2.1
      [⟨0, 0, true, "Item A"⟩, ⟨1, 1, true, "Item B"⟩, ⟨2, 2, false, "Item C"⟩]
      2 (by decide) (by decide)⟩

/-! ## Open seeding (spec §4.4, Closed → Open) -/

/-- Modelled from the spec: what triggered the `Closed → Open` transition
of the menu. -/
inductive OpenTrigger where
  | click
  | enter
  | space
  | arrowUp
  | arrowDown

/-- Modelled from the spec: the active item seeded on open — ArrowUp
seeds the navigator at `Last`, Enter/Space/ArrowDown at `First`, a mouse
click seeds no active item. -/
def initialActive (t : OpenTrigger) (items : List Item) : Option Nat :=
  match t with
  | .click => none
  | .arrowUp => computeNext NavCmd.last items none
  | .enter => computeNext NavCmd.first items none
  | .space => computeNext NavCmd.first items none
  | .arrowDown => computeNext NavCmd.first items none

theorem idOfLastEnabled_eq_none : ∀ {l : List Item},
    (∀ it ∈ l, it.disabled = true) → idOfLastEnabled l = none := by
  intro l
  induction l with
  | nil => intro _; rfl
  | cons x xs ih =>
    intro h
    have hx : x.disabled = true := h x (by simp)
    simp only [idOfLastEnabled, ih (fun it hit => h it (by simp [hit])), if_pos hx]

theorem idOfFirstEnabled_append {pre post : List Item} {it : Item}
    (hpre : ∀ x ∈ pre, x.disabled = true) (hit : it.disabled = false) :
    idOfFirstEnabled (pre ++ it :: post) = some it.id := by
  induction pre with
  | nil => simp [idOfFirstEnabled, hit]
  | cons x xs ih =>
    have hx : x.disabled = true := hpre x (by simp)
    simp only [List.cons_append, idOfFirstEnabled, if_pos hx]
    exact ih (fun y hy => hpre y (by simp [hy]))

theorem idOfLastEnabled_append {pre post : List Item} {it : Item}
    (hpost : ∀ x ∈ post, x.disabled = true) (hit : it.disabled = false) :
    idOfLastEnabled (pre ++ it :: post) = some it.id := by
  induction pre with
  | nil =>
    simp only [List.nil_append, idOfLastEnabled, idOfLastEnabled_eq_none hpost, hit]
    simp
  | cons x xs ih =>
    simp only [List.cons_append, idOfLastEnabled]
    rw [show xs.append (it :: post) = xs ++ it :: post from rfl, ih]

/-- C5: opening a closed menu with ArrowUp activates the last enabled
item; opening it with Enter, Space or ArrowDown activates the first
enabled item, skipping leading disabled items; opening it with a mouse
click activates no item. -/
theorem C5_open_seeding :
    (∀ (pre post : List Item) (it : Item),
      (∀ x ∈ pre, x.disabled = true) → it.disabled = false →
      initialActive OpenTrigger.enter (pre ++ it :: post) = some it.id ∧
      initialActive OpenTrigger.space (pre ++ it :: post) = some it.id ∧
      initialActive OpenTrigger.arrowDown (pre ++ it :: post) = some it.id) ∧
    (∀ (pre post : List Item) (it : Item),
      (∀ x ∈ post, x.disabled = true) → it.disabled = false →
      initialActive OpenTrigger.arrowUp (pre ++ it :: post) = some it.id) ∧
    (∀ items : List Item, initialActive OpenTrigger.click items = none) := by
  refine ⟨?_, ?_, fun items => rfl⟩
  · intro pre post it hpre hit
    have h : idOfFirstEnabled (pre ++ it :: post) = some it.id :=
      idOfFirstEnabled_append hpre hit
    exact ⟨h, h, h⟩
  · intro pre post it hpost hit
    have h : idOfLastEnabled (pre ++ it :: post) = some it.id :=
      idOfLastEnabled_append hpost hit
    exact h

/-- Witness for C5: in the Home-key test menu (Item A and Item B
disabled, Item C and Item D enabled) Enter, Space and ArrowDown open on
Item C; in the three-enabled-items menu ArrowUp opens on the last item;
a click opens with no active item. -/
theorem C5_witness :
    initialActive OpenTrigger.enter
      [⟨0, 0, true, "Item A"⟩, ⟨1, 1, true, "Item B"⟩,
       ⟨2, 2, false, "Item C"⟩, ⟨3, 3, false, "Item D"⟩] = some 2 ∧
    initialActive OpenTrigger.arrowUp
      [⟨0, 0, false, "Item A"⟩, ⟨1, 1, false, "Item B"⟩, ⟨2, 2, false, "Item C"⟩] =
      some 2 ∧
    initialActive OpenTrigger.click
      [⟨0, 0, false, "Item A"⟩, ⟨1, 1, false, "Item B"⟩, ⟨2, 2, false, "Item C"⟩] =
      none :=
  ⟨(C5_open_seeding.1 [⟨0, 0, true, "Item A"⟩, ⟨1, 1, true, "Item B"⟩]
      [⟨3, 3, false, "Item D"⟩] ⟨2, 2, false, "Item C"⟩ (by decide) rfl).1,
   C5_open_seeding.2.1 [⟨0, 0, false, "Item A"⟩, ⟨1, 1, false, "Item B"⟩]
      [] ⟨2, 2, false, "Item C"⟩ (by decide) rfl,
   C5_open_seeding.2.2 [⟨0, 0, false, "Item A"⟩, ⟨1, 1, false, "Item B"⟩,
      ⟨2, 2, false, "Item C"⟩]⟩

/-! ## Type-Ahead Search Engine (spec §4.3) -/

/-- Case-insensitive "text starts with pattern" over character lists. -/
def startsWithCI : List Char → List Char → Bool
  | _, [] => true
  | [], _ :: _ => false
  | t :: ts, p :: ps => (t.toLower == p.toLower) && startsWithCI ts ps

/-- Modelled from the spec: an item matches the search buffer when it is
enabled and its `textValue` case-insensitively starts with the buffer. -/
def matchesQuery (buf : String) (it : Item) : Bool :=
  !it.disabled && startsWithCI it.textValue.toList buf.toList

/-- Modelled from the spec: the circular scan order of the type-ahead
search — the items just after the current active item first, wrapping
around to the start of the list. -/
def rotateAfterActive (items : List Item) (active : Option Nat) : List Item :=
  match active with
  | none => items
  | some i =>
    match items.findIdx? (fun it => it.id == i) with
    | none => items
    | some k => items.drop (k + 1) ++ items.take (k + 1)

/-- Modelled from the spec: the match recomputed on each character — the
first enabled item, scanning circularly from just after the active item,
whose `textValue` case-insensitively starts with the buffer. -/
def searchMatch (items : List Item) (active : Option Nat) (buf : String) : Option Nat :=
  ((rotateAfterActive items active).find? (matchesQuery buf)).map Item.id

/-- Modelled from the spec: the type-ahead buffer together with the
expiry instant of its single-shot reset timer (350 ms window). -/
structure SearchState where
  buffer : String
  expiresAt : Option Nat
deriving DecidableEq

/-- Modelled from the spec: the fixed type-ahead timeout window. -/
def typeaheadTimeout : Nat := 350

/-- The search state before any keystroke. -/
def initialSearch : SearchState := ⟨"", none⟩

/-- Modelled from the spec: `feedCharacter` — when the reset timer has
fired the buffer is cleared first; the character is appended, the timer
is rescheduled, and the match for the new buffer is emitted. -/
def feedChar (items : List Item) (active : Option Nat) (st : SearchState)
    (now : Nat) (c : Char) : SearchState × Option Nat :=
  let base : String :=
    match st.expiresAt with
    | some t => if t ≤ now then "" else st.buffer
    | none => st.buffer
  let buf := base.push c
  (⟨buf, some (now + typeaheadTimeout)⟩, searchMatch items active buf)

/-- Modelled from the spec: a run of timed keystrokes; on a match the
navigator jumps to the matched item via `SpecificItem`, on no match the
active item is unchanged. -/
def feedRun (items : List Item) :
    List (Nat × Char) → SearchState → Option Nat → SearchState × Option Nat
  | [], st, active => (st, active)
  | (t, c) :: rest, st, active =>
    match feedChar items active st t c with
    | (st', some mid) => feedRun items rest st' (computeNext (NavCmd.specific mid) items active)
    | (st', none) => feedRun items rest st' active

theorem mem_of_mem_rotateAfterActive {items : List Item} {active : Option Nat}
    {it : Item} (h : it ∈ rotateAfterActive items active) : it ∈ items := by
  cases active with
  | none => simpa [rotateAfterActive] using h
  | some i =>
    simp only [rotateAfterActive] at h
    cases hidx : items.findIdx? (fun it => it.id == i) with
    | none => rw [hidx] at h; exact h
    | some k =>
      rw [hidx] at h
      rcases List.mem_append.mp h with h' | h'
      · exact List.drop_subset _ items h'
      · exact List.take_subset _ items h'

theorem searchMatch_sound {items : List Item} {active : Option Nat}
    {buf : String} {mid : Nat} (h : searchMatch items active buf = some mid) :
    ∃ it, it ∈ items ∧ it.id = mid ∧ it.disabled = false := by
  unfold searchMatch at h
  cases hfind : (rotateAfterActive items active).find? (matchesQuery buf) with
  | none => rw [hfind] at h; simp at h
  | some it =>
    rw [hfind] at h
    simp at h
    refine ⟨it, mem_of_mem_rotateAfterActive (List.mem_of_find?_eq_some hfind), h, ?_⟩
    have hp := List.find?_some hfind
    rw [matchesQuery, Bool.and_eq_true] at hp
    exact Bool.not_eq_true' (it.disabled) |>.mp hp.1

/-- The alice / bob / charlie menu of the type-ahead tests, in document
order, all enabled. -/
def abcItems : List Item := [⟨0, 0, false, "alice"⟩, ⟨1, 1, false, "bob"⟩, ⟨2, 2, false, "charlie"⟩]

/-- C3: with the menu opened via ArrowUp (charlie active), feeding 'b'
then 'o' inside one timeout window makes bob active; after the timer has
expired, feeding 'o' alone emits no match (the buffer was reset to "o"),
so that keystroke does not select bob and the active item is exactly
whatever the earlier 'b' keystroke had left. -/
theorem C3_typeahead_buffer_window :
    (feedRun abcItems [(0, 'b'), (100, 'o')] initialSearch
      (initialActive OpenTrigger.arrowUp abcItems)).snd = some 1 ∧
    (∀ active : Option Nat,
      (feedChar abcItems active ⟨"b", some 350⟩ 400 'o').snd = none) ∧
    (feedRun abcItems [(0, 'b'), (400, 'o')] initialSearch
      (initialActive OpenTrigger.arrowUp abcItems)).snd =
      (feedRun abcItems [(0, 'b')] initialSearch
        (initialActive OpenTrigger.arrowUp abcItems)).snd := by
  refine ⟨by decide, ?_, by decide⟩
  intro active
  have hall : ∀ it ∈ abcItems, matchesQuery ("".push 'o') it = false := by decide
  have hnone : searchMatch abcItems active ("".push 'o') = none := by
    rw [searchMatch]
    have hfind : (rotateAfterActive abcItems active).find? (matchesQuery ("".push 'o')) = none := by
      rw [List.find?_eq_none]
      intro it hit
      rw [hall it (mem_of_mem_rotateAfterActive hit)]
      exact Bool.false_ne_true
    rw [hfind]
    rfl
  exact hnone

/-! ## Open/Close Controller (spec §4.4) -/

/-- Modelled from the spec: the DOM surroundings of one menu instance —
the trigger element, the element ids of the component's own DOM subtree,
and the registered items. -/
structure MenuDom where
  triggerId : Nat
  subtree : List Nat
  items : List Item

/-- Modelled from the spec: the controller state — whether the menu is
open, the active item, and where document focus currently sits. -/
structure MenuCtrl where
  isOpen : Bool
  activeId : Option Nat
  focusAt : Nat
deriving DecidableEq

/-- Modelled from the spec: the `Open → Closed` exit — focus returns to
the trigger element unless the user has already moved focus outside the
component's subtree during the close, in which case it is left alone. -/
def closeMenu (dom : MenuDom) (s : MenuCtrl) : MenuCtrl :=
  { isOpen := false
    activeId := none
    focusAt := if s.focusAt ∈ dom.subtree then dom.triggerId else s.focusAt }

/-- Modelled from the spec: the events that reach an open menu's
controller. -/
inductive MenuEvent where
  | escape
  | outsidePointerDown
  | outsideFocus
  | activateItem (id : Nat)
  | triggerClick

/-- Modelled from the spec: the `Open → Closed` transitions — Escape,
outside pointer-down or focus, activating an enabled item (a disabled
item is a no-op) and re-clicking the trigger all close the menu; events
on a closed menu are inert. -/
def menuStep (dom : MenuDom) (ev : MenuEvent) (s : MenuCtrl) : MenuCtrl :=
  if s.isOpen = false then s
  else
    match ev with
    | .escape => closeMenu dom s
    | .outsidePointerDown => closeMenu dom s
    | .outsideFocus => closeMenu dom s
    | .triggerClick => closeMenu dom s
    | .activateItem i => if itemEnabledHas dom.items i then closeMenu dom s else s

/-- Which events close an open menu: all of them, except that item
activation requires the item to be enabled. -/
def closingEvent (dom : MenuDom) (ev : MenuEvent) : Prop :=
  match ev with
  | .activateItem i => itemEnabledHas dom.items i = true
  | _ => True

/-- C4: from any open state, Escape, an outside pointer-down, an outside
focus, activating an enabled item and re-clicking the trigger each close
the menu, and focus returns to the trigger unless it had already moved
outside the component's subtree. -/
theorem C4_open_to_closed :
    ∀ (dom : MenuDom) (ev : MenuEvent) (s : MenuCtrl),
    s.isOpen = true → closingEvent dom ev →
    (menuStep dom ev s).isOpen = false ∧
    (s.focusAt ∈ dom.subtree → (menuStep dom ev s).focusAt = dom.triggerId) ∧
    (s.focusAt ∉ dom.subtree → (menuStep dom ev s).focusAt = s.focusAt) := by
  intro dom ev s hopen hev
  have hstep : menuStep dom ev s = closeMenu dom s := by
    cases ev with
    | activateItem i =>
      simp only [closingEvent] at hev
      simp [menuStep, hopen, hev]
    | escape => simp [menuStep, hopen]
    | outsidePointerDown => simp [menuStep, hopen]
    | outsideFocus => simp [menuStep, hopen]
    | triggerClick => simp [menuStep, hopen]
  rw [hstep]
  refine ⟨rfl, ?_, ?_⟩
  · intro hin
    simp [closeMenu, if_pos hin]
  · intro hout
    simp [closeMenu, if_neg hout]

/-- Witness for C4: pressing Escape in a concrete open menu (focus inside
the item list) closes it and moves focus back onto the trigger. -/
theorem C4_witness :
    (menuStep ⟨1, [1, 2, 3], pizzaItems⟩ MenuEvent.escape ⟨true, some 0, 2⟩).isOpen = false ∧
    (menuStep ⟨1, [1, 2, 3], pizzaItems⟩ MenuEvent.escape ⟨true, some 0, 2⟩).focusAt = 1 := by
  have h := C4_open_to_closed ⟨1, [1, 2, 3], pizzaItems⟩ MenuEvent.escape
    ⟨true, some 0, 2⟩ rfl trivial
  exact ⟨h.1, h.2.1 (by decide)⟩

/-! ## Disabled items (spec §4.5, §7) -/

/-- Modelled from the spec: clicking an item — an enabled item closes the
menu and invokes its action once; a disabled item changes nothing and
invokes nothing (the second component lists the invoked actions). -/
def clickItem (dom : MenuDom) (i : Nat) (s : MenuCtrl) : MenuCtrl × List Nat :=
  if itemEnabledHas dom.items i then (closeMenu dom s, [i]) else (s, [])

/-- Modelled from the spec: pointer move over an item activates it only
when it is enabled and not already active; otherwise it is an idempotent
no-op. -/
def hoverItem (items : List Item) (i : Nat) (s : MenuCtrl) : MenuCtrl :=
  if s.activeId = some i then s
  else if itemEnabledHas items i then { s with activeId := some i }
  else s

theorem itemEnabledHas_eq_false {items : List Item} {i : Nat}
    (h : ∀ it ∈ items, it.id = i → it.disabled = true) :
    itemEnabledHas items i = false := by
  rw [itemEnabledHas]
  by_contra hany
  rw [Bool.not_eq_false, List.any_eq_true] at hany
  rcases hany with ⟨it, hit, hp⟩
  rw [Bool.and_eq_true] at hp
  have hid : it.id = i := by
    have := hp.1
    rwa [beq_iff_eq] at this
  have hdis := h it hit hid
  rw [hdis] at hp
  simp at hp

/-- C6: for a disabled item of an open menu, clicking it leaves the whole
controller state unchanged, keeps the menu open and invokes no action;
hovering it never makes it active; and the type-ahead search never
returns it, whatever the buffer and the active item. -/
theorem C6_disabled_noop :
    ∀ (dom : MenuDom) (s : MenuCtrl) (i : Nat),
    (∀ it ∈ dom.items, it.id = i → it.disabled = true) →
    clickItem dom i s = (s, []) ∧
    (clickItem dom i s).1.isOpen = s.isOpen ∧
    hoverItem dom.items i s = s ∧
    (∀ (buf : String) (active : Option Nat), searchMatch dom.items active buf ≠ some i) := by
  intro dom s i h
  have hfalse := itemEnabledHas_eq_false h
  refine ⟨?_, ?_, ?_, ?_⟩
  · simp [clickItem, hfalse]
  · simp [clickItem, hfalse]
  · rw [hoverItem]
    by_cases hact : s.activeId = some i
    · rw [if_pos hact]
    · rw [if_neg hact, hfalse]
      simp
  · intro buf active hc
    rcases searchMatch_sound hc with ⟨it, hmem, hid, hen⟩
    have := h it hmem hid
    rw [this] at hen
    simp at hen

/-- Witness for C6: in the disabled-item test menu (alice, bob disabled,
charlie), clicking bob changes nothing, hovering bob changes nothing, and
searching "bo" never returns bob. -/
theorem C6_witness :
    clickItem ⟨9, [9], [⟨0, 0, false, "alice"⟩, ⟨1, 1, true, "bob"⟩, ⟨2, 2, false, "charlie"⟩]⟩
      1 ⟨true, some 2, 9⟩ = (⟨true, some 2, 9⟩, []) ∧
    hoverItem [⟨0, 0, false, "alice"⟩, ⟨1, 1, true, "bob"⟩, ⟨2, 2, false, "charlie"⟩]
      1 ⟨true, some 2, 9⟩ = ⟨true, some 2, 9⟩ ∧
    searchMatch [⟨0, 0, false, "alice"⟩, ⟨1, 1, true, "bob"⟩, ⟨2, 2, false, "charlie"⟩]
      (some 2) "bo" ≠ some 1 := by
  have h := C6_disabled_noop
    ⟨9, [9], [⟨0, 0, false, "alice"⟩, ⟨1, 1, true, "bob"⟩, ⟨2, 2, false, "charlie"⟩]⟩
    ⟨true, some 2, 9⟩ 1 (by decide)
  exact ⟨h.1, h.2.2.1, h.2.2.2 "bo" (some 2)⟩

/-! ## Nested dialog stack (spec §4.4, §8) -/

/-- Modelled from the spec: the process-wide stack of currently open
dialog instances; opening pushes the new instance on top (innermost
first).  The dialog implementation itself is absent from `src/`. -/
def openDialog (i : Nat) (stack : List Nat) : List Nat := i :: stack

/-- Modelled from the spec: Escape closes only the top-most
(most-recently-opened) instance. -/
def escapeTopDialog (stack : List Nat) : List Nat := stack.tail

/-- The number of currently open dialog instances. -/
def openInstances (stack : List Nat) : Nat := stack.length

/-- C7: with three nested dialogs open, each Escape press removes exactly
the most recently opened instance, never more than one, and the count of
open instances goes 3 → 2 → 1 → 0 over three presses. -/
theorem C7_nested_dialog_escape :
    (∀ (i : Nat) (stack : List Nat), escapeTopDialog (openDialog i stack) = stack) ∧
    openInstances (openDialog 3 (openDialog 2 (openDialog 1 []))) = 3 ∧
    escapeTopDialog (openDialog 3 (openDialog 2 (openDialog 1 []))) =
      openDialog 2 (openDialog 1 []) ∧
    escapeTopDialog (openDialog 2 (openDialog 1 [])) = openDialog 1 [] ∧
    escapeTopDialog (openDialog 1 []) = [] ∧
    openInstances (escapeTopDialog (openDialog 3 (openDialog 2 (openDialog 1 [])))) = 2 ∧
    openInstances (escapeTopDialog (escapeTopDialog
      (openDialog 3 (openDialog 2 (openDialog 1 []))))) = 1 ∧
    openInstances (escapeTopDialog (escapeTopDialog (escapeTopDialog
      (openDialog 3 (openDialog 2 (openDialog 1 [])))))) = 0 := by
  exact ⟨fun i stack => rfl, rfl, rfl, rfl, rfl, rfl, rfl, rfl⟩

/-! ## Switch / Transition usage errors (src/unnamed/part_001, part_002) -/

/-- The Switch.Group context of `src/unnamed/part_001`: the registered
switch and label elements. -/
structure SwitchGroupState where
  switchId : Option Nat
  labelId : Option Nat
deriving DecidableEq

/-- `useGroupContext` of `src/unnamed/part_001`: a missing parent
`Switch.Group` context throws. -/
def useGroupContext (component : String) (ctx : Option SwitchGroupState) :
    Except String SwitchGroupState :=
  match ctx with
  | none => Except.error ("<" ++ component ++ " /> is missing a parent <Switch.Group /> component.")
  | some c => Except.ok c

/-- Rendering `Switch.Label` from `src/unnamed/part_001`: the group
context is demanded first, and its error is not caught. -/
def renderSwitchLabel (ctx : Option SwitchGroupState) : Except String String :=
  match useGroupContext "Switch.Label" ctx with
  | Except.error e => Except.error e
  | Except.ok _ => Except.ok "label"

/-- The Transition context of `src/unnamed/part_002`. -/
structure TransitionCtx where
  showFlag : Bool
  appear : Bool
deriving DecidableEq

/-- The nesting registry of `src/unnamed/part_002` (`useNesting`): the
ids of the children that are still transitioning. -/
structure Nesting where
  children : List Nat
deriving DecidableEq

/-- `useTransitionContext` of `src/unnamed/part_002`: a `Transition.Child`
without a parent `Transition` throws. -/
def useTransitionContext (ctx : Option TransitionCtx) : Except String TransitionCtx :=
  match ctx with
  | none => Except.error "A <Transition.Child /> is used but it is missing a parent <Transition />."
  | some c => Except.ok c

/-- `useParentNesting` of `src/unnamed/part_002`: a `Transition.Child`
without a parent nesting context throws the same error. -/
def useParentNesting (ctx : Option Nesting) : Except String Nesting :=
  match ctx with
  | none => Except.error "A <Transition.Child /> is used but it is missing a parent <Transition />."
  | some c => Except.ok c

/-- A JavaScript value as passed for the `show` prop. -/
inductive JSVal where
  | bool (b : Bool)
  | undef
  | nullVal
  | str (s : String)
  | num (n : Int)
deriving DecidableEq

/-- The `show` prop validation of `Transition` in `src/unnamed/part_002`:
anything other than the booleans `true` and `false` throws. -/
def validateShowProp (v : JSVal) : Except String Bool :=
  match v with
  | .bool b => Except.ok b
  | _ => Except.error "A <Transition /> is used but it is missing a `show={true | false}` prop."

/-- Rendering `Transition.Child` from `src/unnamed/part_002`: both
required contexts are demanded; their errors propagate uncaught. -/
def renderTransitionChild (tctx : Option TransitionCtx) (nctx : Option Nesting) :
    Except String (Bool × Bool) :=
  match useTransitionContext tctx with
  | Except.error e => Except.error e
  | Except.ok t =>
    match useParentNesting nctx with
    | Except.error e => Except.error e
    | Except.ok _ => Except.ok (t.showFlag, t.appear)

/-- C8: a child part rendered without its required parent context throws
at render time (Switch.Label without Switch.Group, Transition.Child
without Transition), a Transition whose `show` prop is missing or not a
boolean throws, the errors are not caught internally but surface in the
render result, and a boolean `show` does not throw. -/
theorem C8_usage_errors_throw :
    useGroupContext "Switch.Label" none =
      Except.error "<Switch.Label /> is missing a parent <Switch.Group /> component." ∧
    renderSwitchLabel none =
      Except.error "<Switch.Label /> is missing a parent <Switch.Group /> component." ∧
    useParentNesting none =
      Except.error "A <Transition.Child /> is used but it is missing a parent <Transition />." ∧
    (∀ nctx : Option Nesting, renderTransitionChild none nctx =
      Except.error "A <Transition.Child /> is used but it is missing a parent <Transition />.") ∧
    (∀ v : JSVal, (∀ b : Bool, v ≠ JSVal.bool b) →
      validateShowProp v =
        Except.error "A <Transition /> is used but it is missing a `show={true | false}` prop.") ∧
    (∀ b : Bool, validateShowProp (JSVal.bool b) = Except.ok b) := by
  refine ⟨rfl, rfl, rfl, fun nctx => rfl, ?_, fun b => rfl⟩
  intro v hv
  cases v with
  | bool b => exact absurd rfl (hv b)
  | undef => rfl
  | nullVal => rfl
  | str s => rfl
  | num n => rfl

/-- Witness for C8: the `show` prop left `undefined` throws the
`show={true | false}` error. -/
theorem C8_witness :
    validateShowProp JSVal.undef =
      Except.error "A <Transition /> is used but it is missing a `show={true | false}` prop." :=
  C8_usage_errors_throw.2.2.2.2.1 JSVal.undef (fun _ h => JSVal.noConfusion h)

/-! ## Transition nesting (src/unnamed/part_002) -/

/-- `register` of `useNesting` in `src/unnamed/part_002`: pushes the
child id onto the list of transitioning children. -/
def nestingRegister (childId : Nat) (n : Nesting) : Nesting :=
  ⟨n.children ++ [childId]⟩

/-- `unregister` of `useNesting` in `src/unnamed/part_002`: an unknown id
is a no-op; otherwise its first occurrence is spliced out, and the `done`
callback fires exactly when the list becomes empty while still mounted
(the boolean result reports whether `done` fired). -/
def nestingUnregister (mounted : Bool) (childId : Nat) (n : Nesting) : Nesting × Bool :=
  if childId ∈ n.children then
    ((⟨n.children.erase childId⟩ : Nesting), (n.children.erase childId).isEmpty && mounted)
  else (n, false)

/-- `TreeStates` of `src/unnamed/part_002`. -/
inductive TreeState where
  | Visible
  | Hidden
deriving DecidableEq

/-- The hide effect of `Transition` in `src/unnamed/part_002`: on
`show = true` the container shows; on `show = false` it hides only when
no transitioning children remain, and otherwise keeps its state. -/
def transitionHideEffect (showFlag : Bool) (n : Nesting) (st : TreeState) : TreeState :=
  if showFlag then .Visible
  else if n.children.isEmpty then .Hidden
  else st

/-- `Reason` of the transition utilities used by `src/unnamed/part_002`. -/
inductive Reason where
  | Finished
  | Cancelled
deriving DecidableEq

/-- The leave-completion handler of `TransitionChild` in
`src/unnamed/part_002`: only a `Finished` leave with no remaining
children hides the node and unregisters it from the parent (the boolean
reports the unregistration). -/
def childLeaveComplete (reason : Reason) (n : Nesting) (st : TreeState) : TreeState × Bool :=
  match reason with
  | .Cancelled => (st, false)
  | .Finished => if n.children.isEmpty then (.Hidden, true) else (st, false)

/-- The nesting `done` callback of `TransitionChild` in
`src/unnamed/part_002`: when the last nested child finished, the node
hides itself only if it is not itself transitioning. -/
def childNestingDone (isTransitioning : Bool) (st : TreeState) : TreeState × Bool :=
  if isTransitioning then (st, false) else (TreeState.Hidden, true)

/-- C9: while the nesting registry still holds children, neither the
container's hide effect nor a child's leave completion ever sets the
state to Hidden, a still-transitioning child does not hide on its own
`done` callback, and the `done` callback of `unregister` fires exactly
when the last registered child unregisters — at which point the children
list is empty. -/
theorem C9_hide_waits_for_children :
    (∀ (n : Nesting) (st : TreeState), n.children ≠ [] →
      transitionHideEffect false n st = st) ∧
    (∀ (n : Nesting) (st : TreeState) (r : Reason), n.children ≠ [] →
      childLeaveComplete r n st = (st, false)) ∧
    (∀ st : TreeState, childNestingDone true st = (st, false)) ∧
    (∀ (n : Nesting) (cid : Nat),
      (nestingUnregister true cid n).snd = true ↔
        (cid ∈ n.children ∧ n.children.erase cid = [])) ∧
    (∀ (n : Nesting) (cid : Nat),
      (nestingUnregister true cid n).snd = true →
        (nestingUnregister true cid n).fst.children = []) := by
  refine ⟨?_, ?_, fun st => rfl, ?_, ?_⟩
  · intro n st hne
    have : n.children.isEmpty = false := by
      cases h : n.children with
      | nil => exact absurd h hne
      | cons a l => rfl
    simp [transitionHideEffect, this]
  · intro n st r hne
    have : n.children.isEmpty = false := by
      cases h : n.children with
      | nil => exact absurd h hne
      | cons a l => rfl
    cases r with
    | Cancelled => rfl
    | Finished => simp [childLeaveComplete, this]
  · intro n cid
    rw [nestingUnregister]
    by_cases hmem : cid ∈ n.children
    · rw [if_pos hmem]
      constructor
      · intro h
        rw [Bool.and_eq_true] at h
        exact ⟨hmem, List.isEmpty_iff.mp h.1⟩
      · intro h
        rw [Bool.and_eq_true]
        exact ⟨List.isEmpty_iff.mpr h.2, rfl⟩
    · rw [if_neg hmem]
      constructor
      · intro h; simp at h
      · intro h; exact absurd h.1 hmem
  · intro n cid h
    rw [nestingUnregister] at h ⊢
    by_cases hmem : cid ∈ n.children
    · rw [if_pos hmem] at h ⊢
      rw [Bool.and_eq_true] at h
      exact List.isEmpty_iff.mp h.1
    · rw [if_neg hmem] at h
      simp at h

/-- Witness for C9: a container with one still-transitioning child keeps
its Visible state on a hide, and unregistering that last child fires the
`done` callback. -/
theorem C9_witness :
    transitionHideEffect false ⟨[7]⟩ TreeState.Visible = TreeState.Visible ∧
    childLeaveComplete Reason.Finished ⟨[7]⟩ TreeState.Visible = (TreeState.Visible, false) ∧
    (nestingUnregister true 7 ⟨[7]⟩).snd = true :=
  ⟨C9_hide_waits_for_children.1 ⟨[7]⟩ TreeState.Visible (by decide),
   C9_hide_waits_for_children.2.1 ⟨[7]⟩ TreeState.Visible Reason.Finished (by decide),
   (C9_hide_waits_for_children.2.2.2.1 ⟨[7]⟩ 7).mpr (by decide)⟩

/-! ## Switch toggling (src/unnamed/part_001) -/

/-- The keys a key-up handler may see. -/
inductive SwitchKey where
  | space
  | enter
  | tab
  | escape
deriving DecidableEq

/-- `toggle` of `Switch` in `src/unnamed/part_001`: one `onChange`
invocation with the negated checked value (the list collects the
invocations). -/
def switchToggle (checked : Bool) : List Bool := [!checked]

/-- `handleClick` of `Switch` in `src/unnamed/part_001`: prevents the
default and toggles. -/
def switchHandleClick (checked : Bool) : List Bool := switchToggle checked

/-- `handleKeyUp` of `Switch` in `src/unnamed/part_001`: only the Space
key toggles; every other key invokes nothing. -/
def switchHandleKeyUp (k : SwitchKey) (checked : Bool) : List Bool :=
  if k = SwitchKey.space then switchToggle checked else []

/-- The controlled parent applying the `onChange` invocations in order to
its checked state. -/
def applyOnChange (checked : Bool) (calls : List Bool) : Bool :=
  calls.foldl (fun _ v => v) checked

/-- C10: a click and a Space key-up each invoke `onChange` exactly once
with the negation of the current checked value, no other key invokes
`onChange`, and two consecutive toggles restore the original checked
state. -/
theorem C10_switch_toggle :
    (∀ checked : Bool, switchHandleClick checked = [!checked]) ∧
    (∀ checked : Bool, switchHandleKeyUp SwitchKey.space checked = [!checked]) ∧
    (∀ (checked : Bool) (k : SwitchKey), k ≠ SwitchKey.space →
      switchHandleKeyUp k checked = []) ∧
    (∀ checked : Bool,
      applyOnChange (applyOnChange checked (switchHandleClick checked))
        (switchHandleClick (applyOnChange checked (switchHandleClick checked))) = checked) := by
  refine ⟨fun checked => rfl, fun checked => rfl, ?_, ?_⟩
  · intro checked k hk
    rw [switchHandleKeyUp, if_neg hk]
  · intro checked
    cases checked <;> rfl

/-- Witness for C10: an Enter key-up invokes no `onChange`. -/
theorem C10_witness : switchHandleKeyUp SwitchKey.enter false = [] :=
  C10_switch_toggle.2.2.1 false SwitchKey.enter (fun h => SwitchKey.noConfusion h)

end HeadlessUI
